import Mathlib

/-!
Verification of the calendar-row generation core of
`prayer_times_calendar.py` (`convert_entries_to_csv_lines` and the pure
line-building part of `get_calendar_csv`).

The embedding models Python `datetime.datetime` values as a wall-clock
timestamp in microseconds since 1970-01-01T00:00:00 (proleptic Gregorian,
the naive reading of the stored fields) together with an optional UTC
offset in microseconds (`none` models a naive datetime).  Python's year
range limits (1..9999) and `timedelta` range limits are idealised as
unbounded integers; every quantity that actually occurs in the program
stays far inside those ranges.

Fallible Python operations (KeyError on a missing dict key, ValueError
from `datetime.fromisoformat`, IndexError from `split()[0]` on an empty
token list, TypeError from subtracting a naive from an aware datetime)
are modelled with `Except PyError`.
-/

deriving instance DecidableEq for Except

namespace PrayerCal

/-- The Python exception kinds the modelled code can raise. -/
inductive PyError where
  | keyError
  | valueError
  | typeError
  | indexError
deriving DecidableEq, Repr

/-- Model of a Python `datetime.datetime`: `wall` is the naive reading of
the stored calendar fields, in microseconds since 1970-01-01T00:00:00;
`off` is `utcoffset()` in microseconds (`none` for a naive datetime). -/
structure PyDateTime where
  wall : Int
  off : Option Int
deriving DecidableEq, Repr

def usPerDay : Int := 86400000000

def usPerHour : Int := 3600000000

def usPerMinute : Int := 60000000

def usPerSecond : Int := 1000000

/-- Python `datetime.__add__` with a `timedelta` of `d` microseconds:
the wall fields shift, the tzinfo is unchanged. -/
def pyAdd (t : PyDateTime) (d : Int) : PyDateTime :=
  { t with wall := t.wall + d }

/-- Python `datetime.__sub__` on two datetimes, giving a `timedelta` in
microseconds.  Aware minus aware subtracts the UTC offsets; mixing a
naive and an aware datetime raises `TypeError`. -/
def pySub (a b : PyDateTime) : Except PyError Int :=
  match a.off, b.off with
  | none, none => .ok (a.wall - b.wall)
  | some x, some y => .ok ((a.wall - x) - (b.wall - y))
  | _, _ => .error .typeError

/-- Python `timedelta.__truediv__` by the integer 2 on a `timedelta` of
`a` microseconds: the exact quotient rounded to the nearest microsecond,
ties to even (CPython `_divide_and_round`, which uses floor `divmod`). -/
def halfRoundEven (a : Int) : Int :=
  if a.fmod 2 = 0 then a.fdiv 2
  else if (a.fdiv 2).fmod 2 = 0 then a.fdiv 2 else a.fdiv 2 + 1

/-- Gregorian leap-year test (as in Python's `calendar.isleap`). -/
def isLeap (y : Nat) : Bool :=
  y % 4 == 0 && (y % 100 != 0 || y % 400 == 0)

/-- Number of days in month `m` of year `y` (validation used by
`datetime.fromisoformat`). -/
def daysInMonth (y m : Nat) : Nat :=
  if m = 2 then (if isLeap y then 29 else 28)
  else if m = 4 ∨ m = 6 ∨ m = 9 ∨ m = 11 then 30
  else 31

/-- Days from 1970-01-01 to year `y`, month `m`, day `d` (proleptic
Gregorian; the standard civil-from-triple computation used by
`datetime.toordinal`, shifted to the Unix epoch). -/
def civilToDays (y : Int) (m d : Nat) : Int :=
  let yy : Int := if m ≤ 2 then y - 1 else y
  let era : Int := yy.fdiv 400
  let yoe : Nat := (yy.fmod 400).toNat
  let mp : Nat := if 2 < m then m - 3 else m + 9
  let doy : Nat := (153 * mp + 2) / 5 + d - 1
  let doe : Nat := yoe * 365 + yoe / 4 - yoe / 100 + doy
  era * 146097 + (doe : Int) - 719468

/-- Inverse of `civilToDays`: the (year, month, day) triple of the day
`z` days after 1970-01-01 (standard triple-from-civil computation used by
`datetime.fromordinal`). -/
def daysToCivil (z : Int) : Int × Nat × Nat :=
  let zz : Int := z + 719468
  let era : Int := zz.fdiv 146097
  let doe : Nat := (zz.fmod 146097).toNat
  let yoe : Nat := (doe - doe / 1460 + doe / 36524 - doe / 146096) / 365
  let doy : Nat := doe - (365 * yoe + yoe / 4 - yoe / 100)
  let mp : Nat := (5 * doy + 2) / 153
  let d : Nat := doy - (153 * mp + 2) / 5 + 1
  let m : Nat := if mp < 10 then mp + 3 else mp - 9
  (((era * 400 + (yoe : Int)) + (if m ≤ 2 then 1 else 0)), m, d)

/-! ### Model of `str.split()[0]` and `datetime.fromisoformat` -/

/-- Characters Python's `str.split()` (no argument) splits on. -/
def isPySpace (c : Char) : Bool :=
  c == ' ' || c == '\t' || c == '\n' || c == '\r' || c == '\x0b' || c == '\x0c'

/-- Model of `s.split()[0]`: the first whitespace-delimited token of `s`.
`split()` on a string with no token gives `[]`, so indexing raises
`IndexError`. -/
def splitFirst (s : String) : Except PyError (List Char) :=
  let t := (s.data.dropWhile isPySpace).takeWhile (fun c => !isPySpace c)
  if t.isEmpty then .error .indexError else .ok t

/-- Numeric value of a decimal digit character, `none` otherwise. -/
def digitVal (c : Char) : Option Nat :=
  if c.isDigit then some (c.toNat - 48) else none

/-- Consume two decimal digits. -/
def parse2 : List Char → Option (Nat × List Char)
  | c1 :: c2 :: rest => do
    let d1 ← digitVal c1
    let d2 ← digitVal c2
    some (d1 * 10 + d2, rest)
  | _ => none

/-- Consume four decimal digits. -/
def parse4 : List Char → Option (Nat × List Char)
  | c1 :: c2 :: c3 :: c4 :: rest => do
    let d1 ← digitVal c1
    let d2 ← digitVal c2
    let d3 ← digitVal c3
    let d4 ← digitVal c4
    some (((d1 * 10 + d2) * 10 + d3) * 10 + d4, rest)
  | _ => none

/-- Consume an expected literal character. -/
def expectChar (c : Char) : List Char → Option (List Char)
  | x :: rest => if x == c then some rest else none
  | [] => none

/-- Decimal value of a digit list (most significant first). -/
def digitsVal (ds : List Char) : Nat :=
  ds.foldl (fun acc c => acc * 10 + (c.toNat - 48)) 0

/-- Fractional-second part `.fff` or `.ffffff` of an ISO time, as
microseconds (`datetime.fromisoformat` accepts exactly 3 or 6 digits). -/
def parseFrac : List Char → Option (Nat × List Char)
  | '.' :: rest =>
    let ds := rest.takeWhile Char.isDigit
    if ds.length = 3 then some (digitsVal ds * 1000, rest.drop 3)
    else if ds.length = 6 then some (digitsVal ds, rest.drop 6)
    else none
  | _ => none

/-- UTC-offset tail `±HH:MM[:SS]` of an ISO string, in microseconds; the
whole remainder must be consumed, and the offset must lie inside the
range `timezone` accepts. -/
def parseTz (cs : List Char) : Option Int := do
  let sign : Int ← match cs.head? with
    | some '+' => some 1
    | some '-' => some (-1)
    | _ => none
  let (hh, cs) ← parse2 cs.tail
  let cs ← expectChar ':' cs
  let (mm, cs) ← parse2 cs
  let (ss, cs) ← match cs with
    | ':' :: rest => do
        let (ss, rest) ← parse2 rest
        some (ss, rest)
    | _ => some (0, cs)
  if cs.isEmpty ∧ hh ≤ 23 ∧ mm ≤ 59 ∧ ss ≤ 59 then
    some (sign * (((hh * 3600 + mm * 60 + ss : Nat) : Int) * usPerSecond))
  else none

/-- The time-of-day-and-offset tail `HH[:MM[:SS[.ffffff]]][±HH:MM[:SS]]`
of an ISO string: microseconds into the day, and the offset if one is
attached. -/
def parseTimeTail (cs : List Char) : Option (Nat × Option Int) := do
  let (hh, cs) ← parse2 cs
  let (mi, cs) ← match cs with
    | ':' :: rest => do
        let (mi, rest) ← parse2 rest
        some (mi, rest)
    | _ => some (0, cs)
  let (ss, us, cs) ← match cs with
    | ':' :: rest => do
        let (ss, rest) ← parse2 rest
        match parseFrac rest with
        | some (us, rest) => some (ss, us, rest)
        | none => some (ss, 0, rest)
    | _ => some (0, 0, cs)
  if hh ≤ 23 ∧ mi ≤ 59 ∧ ss ≤ 59 then
    let dayUs : Nat := ((hh * 3600 + mi * 60 + ss) * 1000000 + us)
    match cs with
    | [] => some (dayUs, none)
    | _ => do
        let off ← parseTz cs
        some (dayUs, some off)
  else none

/-- Model of `datetime.fromisoformat` on the grammar
`YYYY-MM-DD[<sep>HH[:MM[:SS[.fff|.ffffff]]][±HH:MM[:SS]]]` (where the
separator is any single character), with the same field validation
CPython performs; `none` models `ValueError`. -/
def fromisoformat (cs : List Char) : Option PyDateTime := do
  let (y, cs) ← parse4 cs
  let cs ← expectChar '-' cs
  let (mo, cs) ← parse2 cs
  let cs ← expectChar '-' cs
  let (d, cs) ← parse2 cs
  if 1 ≤ y ∧ 1 ≤ mo ∧ mo ≤ 12 ∧ 1 ≤ d ∧ d ≤ daysInMonth y mo then
    match cs with
    | [] => some ⟨civilToDays (y : Int) mo d * usPerDay, none⟩
    | _sep :: cs => do
        let (dayUs, off) ← parseTimeTail cs
        some ⟨civilToDays (y : Int) mo d * usPerDay + (dayUs : Int), off⟩
  else none

/-- Lines 103-105 of the source: take the first whitespace-delimited
token of the raw timing string and parse it with
`datetime.fromisoformat`. -/
def parseTimingValue (s : String) : Except PyError PyDateTime :=
  match splitFirst s with
  | .error err => .error err
  | .ok tok =>
    match fromisoformat tok with
    | some dt => .ok dt
    | none => .error .valueError

/-! ### The entry model and the conversion pipeline -/

/-- The `timings` mapping of one day's API entry: finitely many distinct
string keys to raw timing strings, modelled as an association list
(first match wins; the Python dict has unique keys). -/
abbrev Timings : Type := List (String × String)

/-- `timings[field]` without the KeyError: `none` when the key is absent. -/
def lookupField (t : Timings) (k : String) : Option String :=
  (List.find? (fun p => p.1 == k) t).map (fun p => p.2)

/-- One element of the `entries` list handed to
`convert_entries_to_csv_lines`; only its `timings` member is read. -/
structure Entry where
  timings : Timings
deriving DecidableEq, Repr

def COPIED_FIELDS : List String :=
  ["Fajr", "Sunrise", "Dhuhr", "Asr", "Maghrib", "Isha"]

def EVENT_NAMES : List String :=
  ["Fajr", "Sunrise", "Dhuhr", "Asr", "Maghrib", "Isha"]

def EXTRA_MIDNIGHT_EVENT_NAME : String := "Midnight"

/-- Configured lead in the source (`MINUTES_BEFORE = 0`).  The pipeline
below takes the two configured values as parameters. -/
def MINUTES_BEFORE : Int := 0

/-- Configured lag in the source (`MINUTES_AFTER = 5`). -/
def MINUTES_AFTER : Int := 5

/-- Lookup in the `event_times` ordered mapping (distinct keys). -/
def lookupEvt (evts : List (String × PyDateTime)) (k : String) :
    Option PyDateTime :=
  (List.find? (fun p => p.1 == k) evts).map (fun p => p.2)

/-- Lines 102-106 of the source: for each `(field, subject)` pair, read
`entry['timings'][field]` (KeyError when absent), strip to the first
token and parse it, and record `(subject, parsed)` in order.  The
`event_times` OrderedDict is modelled as the association list built in
insertion order. -/
def parseFields (e : Entry) :
    List (String × String) → Except PyError (List (String × PyDateTime))
  | [] => .ok []
  | (field, subject) :: rest =>
    match lookupField e.timings field with
    | none => .error .keyError
    | some s =>
      match parseTimingValue s with
      | .error err => .error err
      | .ok dt =>
        match parseFields e rest with
        | .error err => .error err
        | .ok tail => .ok ((subject, dt) :: tail)

/-- Lines 110-113 of the source: the synthetic midnight instant
`(current_fajr_time - last_maghrib_time) / 2 + last_maghrib_time`. -/
def midnightOf (lastMaghrib fajr : PyDateTime) : Except PyError PyDateTime :=
  match pySub fajr lastMaghrib with
  | .error err => .error err
  | .ok d => .ok (pyAdd lastMaghrib (halfRoundEven d))

/-- Lines 100-115 of the source: parse the six events of one entry and,
when a previous Maghrib anchor exists, insert the "Midnight" event and
move it to the front of the ordered mapping.  `EVENT_NAMES[0]` in the
source is the literal "Fajr". -/
def dayEventTimes (lastMaghrib : Option PyDateTime) (e : Entry) :
    Except PyError (List (String × PyDateTime)) :=
  match parseFields e (COPIED_FIELDS.zip EVENT_NAMES) with
  | .error err => .error err
  | .ok evts =>
    match lastMaghrib with
    | none => .ok evts
    | some m =>
      match lookupEvt evts "Fajr" with
      | none => .error .keyError
      | some fajr =>
        match midnightOf m fajr with
        | .error err => .error err
        | .ok mid => .ok ((EXTRA_MIDNIGHT_EVENT_NAME, mid) :: evts)

/-- Line 117 of the source: `event_times[EVENT_NAMES[4]]` (the literal
"Maghrib"), the value the carried `last_maghrib_time` is set to. -/
def maghribOf (evts : List (String × PyDateTime)) : Except PyError PyDateTime :=
  match lookupEvt evts "Maghrib" with
  | none => .error .keyError
  | some m => .ok m

/-- Lines 121-122 of the source, for one event: the row's start and end
datetimes (`start = t - MINUTES_BEFORE`, `end = t + MINUTES_AFTER`). -/
def entryRows (mb ma : Int) (evts : List (String × PyDateTime)) :
    List (String × PyDateTime × PyDateTime) :=
  evts.map (fun p =>
    (p.1, pyAdd p.2 (-(mb * usPerMinute)), pyAdd p.2 (ma * usPerMinute)))

/-! ### `strftime` formatting (`"%m/%d/%Y"` and `"%I:%M:%S %p"`) -/

/-- The character of a decimal digit. -/
def digitChar (n : Nat) : Char := Char.ofNat (48 + n)

/-- A zero-padded two-digit `strftime` field (`%m %d %I %M %S`); every
field the program formats this way is below 100. -/
def pad2 (n : Nat) : List Char :=
  if n < 10 then ['0', digitChar n]
  else [digitChar (n / 10 % 10), digitChar (n % 10)]

/-- The `%Y` field: the decimal digits of the year, unpadded, as glibc
prints years in the `datetime` range 1..9999. -/
def yearChars (n : Nat) : List Char :=
  if 1000 ≤ n then
    [digitChar (n / 1000 % 10), digitChar (n / 100 % 10),
     digitChar (n / 10 % 10), digitChar (n % 10)]
  else if 100 ≤ n then
    [digitChar (n / 100 % 10), digitChar (n / 10 % 10), digitChar (n % 10)]
  else if 10 ≤ n then [digitChar (n / 10 % 10), digitChar (n % 10)]
  else [digitChar (n % 10)]

/-- The (year, month, day) of a datetime's wall-clock fields. -/
def wallCivil (t : PyDateTime) : Int × Nat × Nat :=
  daysToCivil (t.wall.fdiv usPerDay)

/-- Microseconds into the wall-clock day. -/
def wallUs (t : PyDateTime) : Nat := (t.wall.fmod usPerDay).toNat

def wallHour (t : PyDateTime) : Nat := wallUs t / 3600000000

def wallMinute (t : PyDateTime) : Nat := wallUs t / 60000000 % 60

def wallSecond (t : PyDateTime) : Nat := wallUs t / 1000000 % 60

/-- `strftime(DATE_FORMAT)` with `DATE_FORMAT = "%m/%d/%Y"`. -/
def fmtDate (t : PyDateTime) : String :=
  ⟨pad2 (wallCivil t).2.1 ++ ['/'] ++ pad2 (wallCivil t).2.2 ++ ['/'] ++
    yearChars (wallCivil t).1.toNat⟩

/-- The `%I` field: 12-hour clock, 01..12. -/
def hour12 (t : PyDateTime) : Nat :=
  if wallHour t % 12 = 0 then 12 else wallHour t % 12

/-- The `%p` field. -/
def ampm (t : PyDateTime) : List Char :=
  if wallHour t < 12 then ['A', 'M'] else ['P', 'M']

/-- `strftime(TIME_FORMAT)` with `TIME_FORMAT = "%I:%M:%S %p"`. -/
def fmtTime (t : PyDateTime) : String :=
  ⟨pad2 (hour12 t) ++ [':'] ++ pad2 (wallMinute t) ++ [':'] ++
    pad2 (wallSecond t) ++ [' '] ++ ampm t⟩

/-- Lines 124-130 of the source: one formatted CSV line from a row's
subject, start and end. -/
def lineOfRow (r : String × PyDateTime × PyDateTime) : String :=
  r.1 ++ "," ++ fmtDate r.2.1 ++ "," ++ fmtTime r.2.1 ++ "," ++
    fmtDate r.2.2 ++ "," ++ fmtTime r.2.2 ++ ",Auto-generated"

/-- Lines 119-132 of the source: the CSV lines of one day's ordered
event list. -/
def entryLines (mb ma : Int) (evts : List (String × PyDateTime)) :
    List String :=
  (entryRows mb ma evts).map lineOfRow

/-- The loop of lines 99-132: process the remaining entries with the
carried `last_maghrib_time` state, concatenating each day's lines. -/
def convertLoop (mb ma : Int) (lastMaghrib : Option PyDateTime) :
    List Entry → Except PyError (List String)
  | [] => .ok []
  | e :: rest =>
    match dayEventTimes lastMaghrib e with
    | .error err => .error err
    | .ok evts =>
      match maghribOf evts with
      | .error err => .error err
      | .ok m =>
        match convertLoop mb ma (some m) rest with
        | .error err => .error err
        | .ok tail => .ok (entryLines mb ma evts ++ tail)

/-- `convert_entries_to_csv_lines` (lines 93-134 of the source), with the
two configured offsets as parameters; the loop starts with
`last_maghrib_time = None`.  An uncaught Python exception is the
`.error` case, in which the caller receives no lines at all. -/
def convert_entries_to_csv_lines (mb ma : Int) (entries : List Entry) :
    Except PyError (List String) :=
  convertLoop mb ma none entries

def CSV_HEADER : String :=
  "Subject,Start Date,Start Time,End Date,End Time,Description"

/-- The pure line-building part of `get_calendar_csv` (lines 144 and 160
of the source): the header line followed by the generated lines.  The
HTTP fetching that produces `entries` is outside the modelled core. -/
def get_calendar_csv (mb ma : Int) (entries : List Entry) :
    Except PyError (List String) :=
  match convert_entries_to_csv_lines mb ma entries with
  | .error err => .error err
  | .ok rest => .ok (CSV_HEADER :: rest)

/-- Character-class pattern of a `"%m/%d/%Y"`-formatted date string:
two digits, a slash, two digits, a slash, four digits. -/
def dateShape (l : List Char) : Bool :=
  match l with
  | [m1, m2, s1, d1, d2, s2, y1, y2, y3, y4] =>
    m1.isDigit && m2.isDigit && (s1 == '/') && d1.isDigit && d2.isDigit &&
      (s2 == '/') && y1.isDigit && y2.isDigit && y3.isDigit && y4.isDigit
  | _ => false

/-- Character-class pattern of an `"%I:%M:%S %p"`-formatted time string:
`hh:mm:ss` followed by a space and `AM` or `PM`. -/
def timeShape (l : List Char) : Bool :=
  match l with
  | [h1, h2, c1, m1, m2, c2, s1, s2, sp, p, mc] =>
    h1.isDigit && h2.isDigit && (c1 == ':') && m1.isDigit && m2.isDigit &&
      (c2 == ':') && s1.isDigit && s2.isDigit && (sp == ' ') &&
      (p == 'A' || p == 'P') && (mc == 'M')
  | _ => false

/-! ### Concrete example data (the spec's worked example) -/

def exampleDay1 : Entry :=
  ⟨[("Fajr", "2024-01-01T05:00:00"), ("Sunrise", "2024-01-01T06:30:00"),
    ("Dhuhr", "2024-01-01T12:10:00"), ("Asr", "2024-01-01T15:00:00"),
    ("Maghrib", "2024-01-01T17:30:00"), ("Isha", "2024-01-01T19:00:00")]⟩

def exampleDay2 : Entry :=
  ⟨[("Fajr", "2024-01-02T05:02:00"), ("Sunrise", "2024-01-02T06:30:00"),
    ("Dhuhr", "2024-01-02T12:10:00"), ("Asr", "2024-01-02T15:00:00"),
    ("Maghrib", "2024-01-02T17:31:00"), ("Isha", "2024-01-02T19:01:00")]⟩

/-- `exampleDay1` with its timing mapping listed in a different
iteration order (same key-value pairs). -/
def scrambledDay1 : Entry :=
  ⟨[("Isha", "2024-01-01T19:00:00"), ("Maghrib", "2024-01-01T17:30:00"),
    ("Fajr", "2024-01-01T05:00:00"), ("Dhuhr", "2024-01-01T12:10:00"),
    ("Sunrise", "2024-01-01T06:30:00"), ("Asr", "2024-01-01T15:00:00")]⟩

/-- `exampleDay2` with the "Asr" key removed. -/
def exampleBadDay : Entry :=
  ⟨[("Fajr", "2024-01-02T05:02:00"), ("Sunrise", "2024-01-02T06:30:00"),
    ("Dhuhr", "2024-01-02T12:10:00"),
    ("Maghrib", "2024-01-02T17:31:00"), ("Isha", "2024-01-02T19:01:00")]⟩

/-- The parsed six-event list of `exampleDay1`. -/
def exampleEvts1 : List (String × PyDateTime) :=
  [("Fajr", ⟨1704085200000000, none⟩), ("Sunrise", ⟨1704090600000000, none⟩),
   ("Dhuhr", ⟨1704111000000000, none⟩), ("Asr", ⟨1704121200000000, none⟩),
   ("Maghrib", ⟨1704130200000000, none⟩), ("Isha", ⟨1704135600000000, none⟩)]

/-- The event list of `exampleDay2` processed with `exampleDay1`'s
Maghrib (17:30:00) as anchor: Midnight 2024-01-01T23:16:00 first. -/
def exampleEvts2 : List (String × PyDateTime) :=
  [("Midnight", ⟨1704150960000000, none⟩), ("Fajr", ⟨1704171720000000, none⟩),
   ("Sunrise", ⟨1704177000000000, none⟩), ("Dhuhr", ⟨1704197400000000, none⟩),
   ("Asr", ⟨1704207600000000, none⟩), ("Maghrib", ⟨1704216660000000, none⟩),
   ("Isha", ⟨1704222060000000, none⟩)]

/-- The six lines generated for `[exampleDay1]` with lead 0, lag 5. -/
def exampleLines1 : List String :=
  ["Fajr,01/01/2024,05:00:00 AM,01/01/2024,05:05:00 AM,Auto-generated",
   "Sunrise,01/01/2024,06:30:00 AM,01/01/2024,06:35:00 AM,Auto-generated",
   "Dhuhr,01/01/2024,12:10:00 PM,01/01/2024,12:15:00 PM,Auto-generated",
   "Asr,01/01/2024,03:00:00 PM,01/01/2024,03:05:00 PM,Auto-generated",
   "Maghrib,01/01/2024,05:30:00 PM,01/01/2024,05:35:00 PM,Auto-generated",
   "Isha,01/01/2024,07:00:00 PM,01/01/2024,07:05:00 PM,Auto-generated"]

/-- The thirteen lines generated for `[exampleDay1, exampleDay2]` with
lead 0, lag 5. -/
def exampleLines2 : List String :=
  exampleLines1 ++
  ["Midnight,01/01/2024,11:16:00 PM,01/01/2024,11:21:00 PM,Auto-generated",
   "Fajr,01/02/2024,05:02:00 AM,01/02/2024,05:07:00 AM,Auto-generated",
   "Sunrise,01/02/2024,06:30:00 AM,01/02/2024,06:35:00 AM,Auto-generated",
   "Dhuhr,01/02/2024,12:10:00 PM,01/02/2024,12:15:00 PM,Auto-generated",
   "Asr,01/02/2024,03:00:00 PM,01/02/2024,03:05:00 PM,Auto-generated",
   "Maghrib,01/02/2024,05:31:00 PM,01/02/2024,05:36:00 PM,Auto-generated",
   "Isha,01/02/2024,07:01:00 PM,01/02/2024,07:06:00 PM,Auto-generated"]

/-! ### Helper lemmas about `parseFields` -/

theorem parseFields_spec (e : Entry) (fs : List (String × String))
    (evts : List (String × PyDateTime))
    (h : parseFields e fs = .ok evts) :
    List.Forall₂ (fun (fp : String × String) (p : String × PyDateTime) =>
      p.1 = fp.2 ∧ ∃ s, lookupField e.timings fp.1 = some s ∧
        parseTimingValue s = .ok p.2) fs evts := by
  induction fs generalizing evts with
  | nil =>
    simp only [parseFields] at h
    cases h
    exact List.Forall₂.nil
  | cons fp rest ih =>
    obtain ⟨field, subject⟩ := fp
    cases hl : lookupField e.timings field with
    | none => simp [parseFields, hl] at h
    | some s =>
      cases hp : parseTimingValue s with
      | error err => simp [parseFields, hl, hp] at h
      | ok dt =>
        cases hr : parseFields e rest with
        | error err => simp [parseFields, hl, hp, hr] at h
        | ok tail =>
          simp only [parseFields, hl, hp, hr, Except.ok.injEq] at h
          subst h
          exact List.Forall₂.cons ⟨rfl, s, hl, hp⟩ (ih tail hr)

theorem parseFields_names (e : Entry) (fs : List (String × String))
    (evts : List (String × PyDateTime))
    (h : parseFields e fs = .ok evts) :
    evts.map Prod.fst = fs.map Prod.snd := by
  have hf := parseFields_spec e fs evts h
  clear h
  induction hf with
  | nil => rfl
  | cons hh _ ih => simp [ih, hh.1]

/-- If some listed field is absent from the record or its value does not
parse, `parseFields` fails. -/
theorem parseFields_error_of_bad (e : Entry) (fs : List (String × String))
    (field : String) (hf : field ∈ fs.map Prod.fst)
    (hbad : lookupField e.timings field = none ∨
      ∃ s, lookupField e.timings field = some s ∧
        ∀ dt, parseTimingValue s ≠ .ok dt) :
    ∃ err, parseFields e fs = .error err := by
  induction fs with
  | nil => simp at hf
  | cons fp rest ih =>
    obtain ⟨f0, n0⟩ := fp
    cases hl : lookupField e.timings f0 with
    | none => exact ⟨.keyError, by simp [parseFields, hl]⟩
    | some s =>
      cases hp : parseTimingValue s with
      | error err => exact ⟨err, by simp [parseFields, hl, hp]⟩
      | ok dt =>
        have hrest : field ∈ rest.map Prod.fst := by
          rcases List.mem_cons.mp hf with h0 | h0
          · exfalso
            subst h0
            rcases hbad with hb | ⟨s', hs', hbadp⟩
            · rw [hl] at hb; cases hb
            · rw [hl] at hs'
              cases hs'
              exact hbadp dt hp
          · exact h0
        obtain ⟨err, herr⟩ := ih hrest
        exact ⟨err, by simp [parseFields, hl, hp, herr]⟩

/-- `parseFields` reads the record only through `lookupField` at the
listed field names. -/
theorem parseFields_congr (e1 e2 : Entry) (fs : List (String × String))
    (h : ∀ f ∈ fs.map Prod.fst,
      lookupField e1.timings f = lookupField e2.timings f) :
    parseFields e1 fs = parseFields e2 fs := by
  induction fs with
  | nil => rfl
  | cons fp rest ih =>
    obtain ⟨f0, n0⟩ := fp
    have h0 : lookupField e1.timings f0 = lookupField e2.timings f0 :=
      h f0 (by simp)
    have hr : parseFields e1 rest = parseFields e2 rest :=
      ih (fun f hf => h f (by simp [hf]))
    simp only [parseFields, h0, hr]

/-- The fully parsed six-event list of one record: its exact subjects in
canonical order, and the raw-field origin of each instant. -/
theorem parseFields_six (e : Entry) (evts : List (String × PyDateTime))
    (h : parseFields e (COPIED_FIELDS.zip EVENT_NAMES) = .ok evts) :
    ∃ t1 t2 t3 t4 t5 t6,
      evts = [("Fajr", t1), ("Sunrise", t2), ("Dhuhr", t3), ("Asr", t4),
        ("Maghrib", t5), ("Isha", t6)] ∧
      (∃ s, lookupField e.timings "Fajr" = some s ∧
        parseTimingValue s = .ok t1) ∧
      (∃ s, lookupField e.timings "Maghrib" = some s ∧
        parseTimingValue s = .ok t5) := by
  have hf := parseFields_spec e _ evts h
  rw [show COPIED_FIELDS.zip EVENT_NAMES =
    [("Fajr", "Fajr"), ("Sunrise", "Sunrise"), ("Dhuhr", "Dhuhr"),
     ("Asr", "Asr"), ("Maghrib", "Maghrib"), ("Isha", "Isha")] from rfl] at hf
  simp only [List.forall₂_cons_left_iff, List.forall₂_nil_left_iff] at hf
  obtain ⟨p1, l1, ⟨h1, hs1⟩, ⟨p2, l2, ⟨h2, hs2⟩, ⟨p3, l3, ⟨h3, hs3⟩,
    ⟨p4, l4, ⟨h4, hs4⟩, ⟨p5, l5, ⟨h5, hs5⟩, ⟨p6, l6, ⟨h6, hs6⟩,
    hnil, rfl⟩, rfl⟩, rfl⟩, rfl⟩, rfl⟩, rfl⟩ := hf
  subst hnil
  obtain ⟨n1, t1⟩ := p1
  obtain ⟨n2, t2⟩ := p2
  obtain ⟨n3, t3⟩ := p3
  obtain ⟨n4, t4⟩ := p4
  obtain ⟨n5, t5⟩ := p5
  obtain ⟨n6, t6⟩ := p6
  simp only at h1 h2 h3 h4 h5 h6
  subst h1 h2 h3 h4 h5 h6
  exact ⟨t1, t2, t3, t4, t5, t6, rfl, hs1, hs5⟩

/-- Inversion of one day's event-list computation: the parsed six-event
list, and the prepended Midnight pair exactly when an anchor exists. -/
theorem dayEventTimes_inv (lastM : Option PyDateTime) (e : Entry)
    (evts : List (String × PyDateTime))
    (h : dayEventTimes lastM e = .ok evts) :
    ∃ evts6, parseFields e (COPIED_FIELDS.zip EVENT_NAMES) = .ok evts6 ∧
      ((lastM = none ∧ evts = evts6) ∨
       (∃ m fajr d, lastM = some m ∧
         lookupEvt evts6 "Fajr" = some fajr ∧
         pySub fajr m = .ok d ∧
         evts = (EXTRA_MIDNIGHT_EVENT_NAME,
           pyAdd m (halfRoundEven d)) :: evts6)) := by
  cases hp : parseFields e (COPIED_FIELDS.zip EVENT_NAMES) with
  | error err => simp [dayEventTimes, hp] at h
  | ok evts6 =>
    refine ⟨evts6, rfl, ?_⟩
    cases lastM with
    | none =>
      simp only [dayEventTimes, hp, Except.ok.injEq] at h
      exact Or.inl ⟨rfl, h.symm⟩
    | some m =>
      cases hf : lookupEvt evts6 "Fajr" with
      | none => simp [dayEventTimes, hp, hf] at h
      | some fajr =>
        cases hs : pySub fajr m with
        | error err => simp [dayEventTimes, hp, hf, midnightOf, hs] at h
        | ok d =>
          simp only [dayEventTimes, hp, hf, midnightOf, hs,
            Except.ok.injEq] at h
          exact Or.inr ⟨m, fajr, d, rfl, rfl, hs, h.symm⟩

/-- The subjects of one day's ordered event list, by anchor. -/
theorem dayEventTimes_names (lastM : Option PyDateTime) (e : Entry)
    (evts : List (String × PyDateTime))
    (h : dayEventTimes lastM e = .ok evts) :
    evts.map Prod.fst =
      (if lastM.isSome then EXTRA_MIDNIGHT_EVENT_NAME :: EVENT_NAMES
       else EVENT_NAMES) := by
  obtain ⟨evts6, hp, hcase⟩ := dayEventTimes_inv lastM e evts h
  have h6 : evts6.map Prod.fst = EVENT_NAMES := by
    rw [parseFields_names e _ evts6 hp]
    rfl
  rcases hcase with ⟨hnone, rfl⟩ | ⟨m, fajr, d, hsome, _, _, rfl⟩
  · rw [hnone]
    exact h6
  · rw [hsome]
    simp [h6]

/-- Inversion of one loop step. -/
theorem convertLoop_inv_cons (mb ma : Int) (lastM : Option PyDateTime)
    (e : Entry) (rest : List Entry) (ls : List String)
    (h : convertLoop mb ma lastM (e :: rest) = .ok ls) :
    ∃ evts m tail, dayEventTimes lastM e = .ok evts ∧
      maghribOf evts = .ok m ∧
      convertLoop mb ma (some m) rest = .ok tail ∧
      ls = entryLines mb ma evts ++ tail := by
  cases hd : dayEventTimes lastM e with
  | error err => simp [convertLoop, hd] at h
  | ok evts =>
    cases hm : maghribOf evts with
    | error err => simp [convertLoop, hd, hm] at h
    | ok m =>
      cases ht : convertLoop mb ma (some m) rest with
      | error err => simp [convertLoop, hd, hm, ht] at h
      | ok tail =>
        simp only [convertLoop, hd, hm, ht, Except.ok.injEq] at h
        exact ⟨evts, m, tail, rfl, hm, ht, h.symm⟩

/-- With an anchor present, every processed record contributes exactly
seven lines. -/
theorem convertLoop_length_some (mb ma : Int) (anchor : PyDateTime)
    (es : List Entry) (ls : List String)
    (h : convertLoop mb ma (some anchor) es = .ok ls) :
    ls.length = 7 * es.length := by
  induction es generalizing anchor ls with
  | nil =>
    simp only [convertLoop, Except.ok.injEq] at h
    simp [← h]
  | cons e rest ih =>
    obtain ⟨evts, m, tail, hd, _, ht, rfl⟩ :=
      convertLoop_inv_cons mb ma (some anchor) e rest ls h
    have hn := dayEventTimes_names (some anchor) e evts hd
    have hlen : evts.length = 7 := by
      have := congrArg List.length hn
      simpa using this
    have := ih m tail ht
    simp [entryLines, entryRows, hlen, this, List.length_append]
    ring

/-- Every generated line is the formatted line of some row. -/
theorem convertLoop_line_shape (mb ma : Int) (lastM : Option PyDateTime)
    (es : List Entry) (ls : List String)
    (h : convertLoop mb ma lastM es = .ok ls) :
    ∀ l ∈ ls, ∃ r, l = lineOfRow r := by
  induction es generalizing lastM ls with
  | nil =>
    simp only [convertLoop, Except.ok.injEq] at h
    subst h
    intro l hl
    simp at hl
  | cons e rest ih =>
    obtain ⟨evts, m, tail, _, _, ht, rfl⟩ :=
      convertLoop_inv_cons mb ma lastM e rest ls h
    intro l hl
    rcases List.mem_append.mp hl with hl1 | hl2
    · obtain ⟨r, _, rfl⟩ := List.mem_map.mp hl1
      exact ⟨r, rfl⟩
    · exact ih m tail ht l hl2

/-- If any listed entry is malformed, the whole loop fails. -/
theorem convertLoop_error_of_mem (mb ma : Int) (lastM : Option PyDateTime)
    (es : List Entry) (e : Entry) (he : e ∈ es)
    (hbad : ∃ err, parseFields e (COPIED_FIELDS.zip EVENT_NAMES) = .error err) :
    ∃ err, convertLoop mb ma lastM es = .error err := by
  induction es generalizing lastM with
  | nil => simp at he
  | cons e0 rest ih =>
    cases hd : dayEventTimes lastM e0 with
    | error err => exact ⟨err, by simp [convertLoop, hd]⟩
    | ok evts =>
      cases hm : maghribOf evts with
      | error err => exact ⟨err, by simp [convertLoop, hd, hm]⟩
      | ok m =>
        have hrest : e ∈ rest := by
          rcases List.mem_cons.mp he with rfl | h0
          · exfalso
            obtain ⟨err, herr⟩ := hbad
            simp [dayEventTimes, herr] at hd
          · exact h0
        obtain ⟨err, herr⟩ := ih (some m) hrest
        exact ⟨err, by simp [convertLoop, hd, hm, herr]⟩

/-- A successful loop run restricted to a prefix of the entries succeeds
and produces a prefix of the lines. -/
theorem convertLoop_take (mb ma : Int) (lastM : Option PyDateTime)
    (es : List Entry) (ls : List String) (k : Nat)
    (h : convertLoop mb ma lastM es = .ok ls) :
    ∃ ls' suf, convertLoop mb ma lastM (es.take k) = .ok ls' ∧
      ls = ls' ++ suf := by
  induction es generalizing lastM ls k with
  | nil =>
    simp only [convertLoop, Except.ok.injEq] at h
    subst h
    exact ⟨[], [], by simp [convertLoop], rfl⟩
  | cons e rest ih =>
    cases k with
    | zero => exact ⟨[], ls, by simp [convertLoop], rfl⟩
    | succ k =>
      obtain ⟨evts, m, tail, hd, hm, ht, rfl⟩ :=
        convertLoop_inv_cons mb ma lastM e rest ls h
      obtain ⟨ls', suf, htake, rfl⟩ := ih (some m) tail k ht
      refine ⟨entryLines mb ma evts ++ ls', suf, ?_, by simp⟩
      simp [convertLoop, hd, hm, htake]

/-! ### Formatting shape lemmas -/

theorem digitChar_isDigit : ∀ n < 10, (digitChar n).isDigit = true := by
  decide

theorem pad2_digits (n : Nat) :
    ∃ c1 c2, pad2 n = [c1, c2] ∧ c1.isDigit = true ∧ c2.isDigit = true := by
  by_cases h : n < 10
  · exact ⟨'0', digitChar n, by simp [pad2, h], by decide,
      digitChar_isDigit n h⟩
  · exact ⟨digitChar (n / 10 % 10), digitChar (n % 10), by simp [pad2, h],
      digitChar_isDigit _ (Nat.mod_lt _ (by norm_num)),
      digitChar_isDigit _ (Nat.mod_lt _ (by norm_num))⟩

theorem yearChars_digits (n : Nat) (h1 : 1000 ≤ n) :
    ∃ c1 c2 c3 c4, yearChars n = [c1, c2, c3, c4] ∧ c1.isDigit = true ∧
      c2.isDigit = true ∧ c3.isDigit = true ∧ c4.isDigit = true := by
  refine ⟨digitChar (n / 1000 % 10), digitChar (n / 100 % 10),
    digitChar (n / 10 % 10), digitChar (n % 10), by simp [yearChars, h1],
    ?_, ?_, ?_, ?_⟩ <;>
    exact digitChar_isDigit _ (Nat.mod_lt _ (by norm_num))

theorem fmtTime_shape (t : PyDateTime) : timeShape (fmtTime t).data = true := by
  obtain ⟨a1, a2, ha, ha1, ha2⟩ := pad2_digits (hour12 t)
  obtain ⟨b1, b2, hb, hb1, hb2⟩ := pad2_digits (wallMinute t)
  obtain ⟨c1, c2, hc, hc1, hc2⟩ := pad2_digits (wallSecond t)
  have hdata : (fmtTime t).data =
      pad2 (hour12 t) ++ [':'] ++ pad2 (wallMinute t) ++ [':'] ++
        pad2 (wallSecond t) ++ [' '] ++ ampm t := rfl
  rw [hdata, ha, hb, hc]
  unfold ampm
  split
  · show timeShape [a1, a2, ':', b1, b2, ':', c1, c2, ' ', 'A', 'M'] = true
    simp [timeShape, ha1, ha2, hb1, hb2, hc1, hc2]
  · show timeShape [a1, a2, ':', b1, b2, ':', c1, c2, ' ', 'P', 'M'] = true
    simp [timeShape, ha1, ha2, hb1, hb2, hc1, hc2]

theorem fmtDate_shape (t : PyDateTime) (hy1 : 1000 ≤ (wallCivil t).1)
    (hy2 : (wallCivil t).1 ≤ 9999) : dateShape (fmtDate t).data = true := by
  obtain ⟨a1, a2, ha, ha1, ha2⟩ := pad2_digits (wallCivil t).2.1
  obtain ⟨b1, b2, hb, hb1, hb2⟩ := pad2_digits (wallCivil t).2.2
  have hn : 1000 ≤ (wallCivil t).1.toNat := by omega
  obtain ⟨y1, y2, y3, y4, hy, hy1d, hy2d, hy3d, hy4d⟩ :=
    yearChars_digits (wallCivil t).1.toNat hn
  have hdata : (fmtDate t).data =
      pad2 (wallCivil t).2.1 ++ ['/'] ++ pad2 (wallCivil t).2.2 ++ ['/'] ++
        yearChars (wallCivil t).1.toNat := rfl
  rw [hdata, ha, hb, hy]
  show dateShape [a1, a2, '/', b1, b2, '/', y1, y2, y3, y4] = true
  simp [dateShape, ha1, ha2, hb1, hb2, hy1d, hy2d, hy3d, hy4d]

/-! ### Dependence only on the looked-up fields -/

theorem convertLoop_congr (mb ma : Int) (lastM : Option PyDateTime)
    (es1 es2 : List Entry)
    (h : List.Forall₂ (fun a b => ∀ f ∈ COPIED_FIELDS,
      lookupField a.timings f = lookupField b.timings f) es1 es2) :
    convertLoop mb ma lastM es1 = convertLoop mb ma lastM es2 := by
  induction h generalizing lastM with
  | nil => rfl
  | @cons a b l1 l2 hab hrest ih =>
    have hpf : parseFields a (COPIED_FIELDS.zip EVENT_NAMES) =
        parseFields b (COPIED_FIELDS.zip EVENT_NAMES) := by
      refine parseFields_congr a b _ (fun f hf => hab f ?_)
      exact (by exact hf :
        f ∈ ((COPIED_FIELDS.zip EVENT_NAMES).map Prod.fst))
    have hday : ∀ lm, dayEventTimes lm a = dayEventTimes lm b := by
      intro lm
      simp only [dayEventTimes, hpf]
    simp only [convertLoop, hday, ih]

/-! ### The carried Maghrib value -/

/-- The value `maghribOf` extracts is the parse of the record's own raw
"Maghrib" field, whether or not a Midnight pair was prepended. -/
theorem maghribOf_spec (lastM : Option PyDateTime) (e : Entry)
    (evts : List (String × PyDateTime))
    (h : dayEventTimes lastM e = .ok evts) :
    ∃ m s, maghribOf evts = .ok m ∧
      lookupField e.timings "Maghrib" = some s ∧
      parseTimingValue s = .ok m := by
  obtain ⟨evts6, hp, hcase⟩ := dayEventTimes_inv lastM e evts h
  obtain ⟨t1, t2, t3, t4, t5, t6, h6, _, ⟨s, hs, hps⟩⟩ :=
    parseFields_six e evts6 hp
  subst h6
  rcases hcase with ⟨_, rfl⟩ | ⟨m, fajr, d, _, _, _, rfl⟩
  · exact ⟨t5, s, rfl, hs, hps⟩
  · exact ⟨t5, s, rfl, hs, hps⟩

/-! ### The claims -/

/-- C9: `convert_entries_to_csv_lines` is deterministic — for every input
sequence and fixed lead/lag, two calls with the same input yield
byte-identical output sequences (it is a pure function of its
arguments). -/
theorem c9_deterministic (mb ma : Int) (entries : List Entry) :
    convert_entries_to_csv_lines mb ma entries =
      convert_entries_to_csv_lines mb ma entries := rfl

/-- C10: for every successful run and every `k`, the lines produced for
the first `k` records are a prefix of the lines produced for the whole
sequence, and the empty record sequence yields the empty line
sequence. -/
theorem c10_prefix (mb ma : Int) (es : List Entry) (ls : List String)
    (k : Nat) (h : convert_entries_to_csv_lines mb ma es = .ok ls) :
    (∃ ls' suf, convert_entries_to_csv_lines mb ma (es.take k) = .ok ls' ∧
      ls = ls' ++ suf) ∧
    convert_entries_to_csv_lines mb ma ([] : List Entry) = .ok [] :=
  ⟨convertLoop_take mb ma none es ls k h, rfl⟩

/-- Witness for C10 at the two-day example, truncated to one day. -/
theorem c10_prefix_witness :
    (∃ ls' suf,
      convert_entries_to_csv_lines 0 5 ([exampleDay1, exampleDay2].take 1) =
        .ok ls' ∧ exampleLines2 = ls' ++ suf) ∧
    convert_entries_to_csv_lines 0 5 ([] : List Entry) = .ok [] :=
  c10_prefix 0 5 [exampleDay1, exampleDay2] exampleLines2 1 (by decide)

/-- C4: if any record in the sequence is missing one of the six required
fields, or has a field value that does not parse, the modelled
`MalformedTimingError` (a KeyError or parse failure) occurs while parsing
that record, and the whole pass returns an error — so no rows at all are
produced, not for that day, earlier days, or later days. -/
theorem c4_malformed_aborts (mb ma : Int) (es : List Entry) (e : Entry)
    (he : e ∈ es)
    (hbad : (∃ f ∈ COPIED_FIELDS, lookupField e.timings f = none) ∨
      (∃ f ∈ COPIED_FIELDS, ∃ s, lookupField e.timings f = some s ∧
        ∀ dt, parseTimingValue s ≠ .ok dt)) :
    (∃ err, parseFields e (COPIED_FIELDS.zip EVENT_NAMES) = .error err) ∧
    (∃ err, convert_entries_to_csv_lines mb ma es = .error err) ∧
    ∀ ls, convert_entries_to_csv_lines mb ma es ≠ .ok ls := by
  have hbad' : ∃ err,
      parseFields e (COPIED_FIELDS.zip EVENT_NAMES) = .error err := by
    rcases hbad with ⟨f, hf, hnone⟩ | ⟨f, hf, s, hs, hp⟩
    · refine parseFields_error_of_bad e _ f ?_ (Or.inl hnone)
      exact (by exact hf :
        f ∈ ((COPIED_FIELDS.zip EVENT_NAMES).map Prod.fst))
    · refine parseFields_error_of_bad e _ f ?_ (Or.inr ⟨s, hs, hp⟩)
      exact (by exact hf :
        f ∈ ((COPIED_FIELDS.zip EVENT_NAMES).map Prod.fst))
  obtain ⟨err, herr⟩ := convertLoop_error_of_mem mb ma none es e he hbad'
  refine ⟨hbad', ⟨err, herr⟩, ?_⟩
  intro ls hls
  rw [convert_entries_to_csv_lines] at hls
  rw [hls] at herr
  cases herr

/-- Witness for C4: dropping the "Asr" key of the second record makes
the whole two-day pass fail with no lines. -/
theorem c4_malformed_aborts_witness :
    (∃ err, parseFields exampleBadDay (COPIED_FIELDS.zip EVENT_NAMES) =
      .error err) ∧
    (∃ err, convert_entries_to_csv_lines 0 5 [exampleDay1, exampleBadDay] =
      .error err) ∧
    ∀ ls, convert_entries_to_csv_lines 0 5 [exampleDay1, exampleBadDay] ≠
      .ok ls :=
  c4_malformed_aborts 0 5 [exampleDay1, exampleBadDay] exampleBadDay
    (by decide) (Or.inl ⟨"Asr", by decide, by decide⟩)

/-- C5: every row of any processed day — the synthetic Midnight row
included — has `end - start` equal to exactly
`lead_minutes + lag_minutes`. -/
theorem c5_window_length (mb ma : Int) (lastM : Option PyDateTime)
    (e : Entry) (evts : List (String × PyDateTime))
    (_h : dayEventTimes lastM e = .ok evts) :
    ∀ r ∈ entryRows mb ma evts,
      pySub r.2.2 r.2.1 = .ok ((mb + ma) * usPerMinute) := by
  intro r hr
  obtain ⟨⟨name, t⟩, hmem, rfl⟩ := List.mem_map.mp hr
  cases hoff : t.off with
  | none =>
    simp only [pySub, pyAdd, hoff, Except.ok.injEq]
    ring
  | some x =>
    simp only [pySub, pyAdd, hoff, Except.ok.injEq]
    ring

/-- Witness for C5 at the Midnight row of the example's second day. -/
theorem c5_window_length_witness :
    pySub (pyAdd ⟨1704150960000000, none⟩ (5 * usPerMinute))
      (pyAdd ⟨1704150960000000, none⟩ (-(0 * usPerMinute))) =
      .ok ((0 + 5) * usPerMinute) :=
  c5_window_length 0 5 (some ⟨1704130200000000, none⟩) exampleDay2
    exampleEvts2 (by decide)
    ("Midnight", pyAdd ⟨1704150960000000, none⟩ (-(0 * usPerMinute)),
      pyAdd ⟨1704150960000000, none⟩ (5 * usPerMinute)) (by decide)

/-- C1: from the second record onward, the Midnight value emitted with
an anchor `m` (the previous record's Maghrib) is
`m + (fajr - m) / 2` in `timedelta` arithmetic, and whenever the
difference is an even number of microseconds this is the exact midpoint:
Midnight is then equidistant from the anchor and the current Fajr. -/
theorem c1_midnight_midpoint (m fajr mid : PyDateTime) (e : Entry)
    (evts : List (String × PyDateTime)) (d : Int)
    (h : dayEventTimes (some m) e = .ok evts)
    (hhead : evts.head? = some (EXTRA_MIDNIGHT_EVENT_NAME, mid))
    (hfajr : lookupEvt evts "Fajr" = some fajr)
    (hd : pySub fajr m = .ok d) :
    pySub mid m = .ok (halfRoundEven d) ∧
    (d.fmod 2 = 0 → pySub fajr mid = .ok (halfRoundEven d)) := by
  obtain ⟨evts6, hp, hcase⟩ := dayEventTimes_inv (some m) e evts h
  rcases hcase with ⟨hnone, _⟩ | ⟨m', fajr', d', hsome, hf', hd', heq⟩
  · exact absurd hnone (by simp)
  · have hm' : m = m' := by injection hsome
    subst hm'
    subst heq
    have hmid : mid = pyAdd m (halfRoundEven d') := by
      simp only [List.head?_cons, Option.some.injEq, Prod.mk.injEq] at hhead
      exact hhead.2.symm
    have hfj : fajr = fajr' := by
      have hl : lookupEvt evts6 "Fajr" = some fajr := hfajr
      rw [hf'] at hl
      injection hl with h1
      exact h1.symm
    subst hfj
    have hdd : d = d' := by
      rw [hd'] at hd
      injection hd with h1
      exact h1.symm
    subst hdd
    subst hmid
    constructor
    · cases hmo : m.off with
      | none => simp [pySub, pyAdd, hmo]
      | some x =>
        simp only [pySub, pyAdd, hmo, Except.ok.injEq]
        ring
    · intro heven
      have hhalf : halfRoundEven d = d.fdiv 2 := by
        simp [halfRoundEven, heven]
      have hfd := Int.fmod_add_fdiv d 2
      rw [heven, zero_add] at hfd
      cases hmo : m.off with
      | none =>
        cases hfo : fajr.off with
        | none =>
          simp only [pySub, pyAdd, hmo, hfo, Except.ok.injEq] at hd ⊢
          rw [hhalf]
          generalize hg : d.fdiv 2 = k at hfd ⊢
          omega
        | some y => simp [pySub, hmo, hfo] at hd
      | some x =>
        cases hfo : fajr.off with
        | none => simp [pySub, hmo, hfo] at hd
        | some y =>
          simp only [pySub, pyAdd, hmo, hfo, Except.ok.injEq] at hd ⊢
          rw [hhalf]
          generalize hg : d.fdiv 2 = k at hfd ⊢
          omega

/-- Witness for C1 at the spec's example: Maghrib 2024-01-01T17:30:00,
next Fajr 2024-01-02T05:02:00, Midnight 2024-01-01T23:16:00
(wall instant 1704150960000000 us), equidistant by 5 h 46 min. -/
theorem c1_midnight_midpoint_witness :
    pySub ⟨1704150960000000, none⟩ ⟨1704130200000000, none⟩ =
      .ok 20760000000 ∧
    pySub ⟨1704171720000000, none⟩ ⟨1704150960000000, none⟩ =
      .ok 20760000000 := by
  have hc := c1_midnight_midpoint ⟨1704130200000000, none⟩
    ⟨1704171720000000, none⟩ ⟨1704150960000000, none⟩ exampleDay2
    exampleEvts2 41520000000 (by decide) (by decide) (by decide) (by decide)
  exact ⟨hc.1, hc.2 (by decide)⟩

/-- C2: in a successful run on a non-empty sequence, the first record
contributes exactly six lines with the six canonical subjects (no
Midnight), the whole output has `6 + 7 * n` lines for `n` further
records, and any record processed with an anchor contributes exactly
seven lines with Midnight first. -/
theorem c2_row_counts (mb ma : Int) (e1 : Entry) (rest : List Entry)
    (ls : List String)
    (h : convert_entries_to_csv_lines mb ma (e1 :: rest) = .ok ls) :
    ls.length = 6 + 7 * rest.length ∧
    (∃ evts1 tail, dayEventTimes none e1 = .ok evts1 ∧
      evts1.map Prod.fst = EVENT_NAMES ∧
      (entryLines mb ma evts1).length = 6 ∧
      ls = entryLines mb ma evts1 ++ tail) ∧
    (∀ anchor e evts, dayEventTimes (some anchor) e = .ok evts →
      evts.map Prod.fst = EXTRA_MIDNIGHT_EVENT_NAME :: EVENT_NAMES ∧
      (entryLines mb ma evts).length = 7) := by
  obtain ⟨evts, m, tail, hd, hm, ht, rfl⟩ :=
    convertLoop_inv_cons mb ma none e1 rest ls h
  have hn : evts.map Prod.fst = EVENT_NAMES := by
    simpa using dayEventTimes_names none e1 evts hd
  have hlen6 : (entryLines mb ma evts).length = 6 := by
    have := congrArg List.length hn
    simpa [entryLines, entryRows] using this
  have htail : tail.length = 7 * rest.length :=
    convertLoop_length_some mb ma m rest tail ht
  refine ⟨?_, ⟨evts, tail, hd, hn, hlen6, rfl⟩, ?_⟩
  · simp [List.length_append, hlen6, htail]
  · intro anchor e evts' hd'
    have hn' : evts'.map Prod.fst =
        EXTRA_MIDNIGHT_EVENT_NAME :: EVENT_NAMES := by
      simpa using dayEventTimes_names (some anchor) e evts' hd'
    refine ⟨hn', ?_⟩
    have := congrArg List.length hn'
    simpa [entryLines, entryRows] using this

/-- Witness for C2: the two-day example yields 6 + 7 lines. -/
theorem c2_row_counts_witness :
    exampleLines2.length = 6 + 7 * [exampleDay2].length :=
  (c2_row_counts 0 5 exampleDay1 [exampleDay2] exampleLines2 (by decide)).1

/-- C3: the subjects of any day's lines are exactly
[Midnight?, Fajr, Sunrise, Dhuhr, Asr, Maghrib, Isha] in that order, and
the output depends on the incoming timing mappings only through the
values at the six canonical field names — not on the mappings' own
iteration order. -/
theorem c3_canonical_order (mb ma : Int) :
    (∀ lastM e evts, dayEventTimes lastM e = .ok evts →
      evts.map Prod.fst =
        (if lastM.isSome then EXTRA_MIDNIGHT_EVENT_NAME :: EVENT_NAMES
         else EVENT_NAMES)) ∧
    (∀ es1 es2, List.Forall₂ (fun a b => ∀ f ∈ COPIED_FIELDS,
        lookupField a.timings f = lookupField b.timings f) es1 es2 →
      convert_entries_to_csv_lines mb ma es1 =
        convert_entries_to_csv_lines mb ma es2) :=
  ⟨fun lastM e evts h => dayEventTimes_names lastM e evts h,
   fun es1 es2 h => convertLoop_congr mb ma none es1 es2 h⟩

/-- Witness for C3: a record whose mapping lists the same pairs in a
different iteration order produces identical output. -/
theorem c3_canonical_order_witness :
    convert_entries_to_csv_lines 0 5 [scrambledDay1] =
      convert_entries_to_csv_lines 0 5 [exampleDay1] :=
  (c3_canonical_order 0 5).2 [scrambledDay1] [exampleDay1]
    (List.Forall₂.cons (by decide) List.Forall₂.nil)

/-- C7: the value carried to the next iteration after processing a
record is the parse of that record's own raw "Maghrib" field — it does
not depend on the incoming anchor or on the Midnight insertion — and it
is exactly the anchor with which the remaining records are processed. -/
theorem c7_carried_state (mb ma : Int) (lastM : Option PyDateTime)
    (e : Entry) (evts : List (String × PyDateTime)) (m : PyDateTime)
    (h : dayEventTimes lastM e = .ok evts)
    (hm : maghribOf evts = .ok m) :
    (∃ s, lookupField e.timings "Maghrib" = some s ∧
      parseTimingValue s = .ok m) ∧
    (∀ lastM' evts', dayEventTimes lastM' e = .ok evts' →
      maghribOf evts' = .ok m) ∧
    (∀ rest tail, convertLoop mb ma (some m) rest = .ok tail →
      convertLoop mb ma lastM (e :: rest) =
        .ok (entryLines mb ma evts ++ tail)) := by
  obtain ⟨m0, s, hm0, hs, hps⟩ := maghribOf_spec lastM e evts h
  have hmm : m0 = m := by
    rw [hm0] at hm
    injection hm
  subst hmm
  refine ⟨⟨s, hs, hps⟩, ?_, ?_⟩
  · intro lastM' evts' h'
    obtain ⟨m1, s1, hm1, hs1, hps1⟩ := maghribOf_spec lastM' e evts' h'
    rw [hs] at hs1
    have hss : s1 = s := by
      injection hs1 with hx
      exact hx.symm
    subst hss
    rw [hps] at hps1
    have hmm1 : m1 = m0 := by
      injection hps1 with hy
      exact hy.symm
    rw [hm1, hmm1]
  · intro rest tail ht
    simp [convertLoop, h, hm, ht]

/-- Witness for C7: the state after the example's first day is the parse
of its raw Maghrib string 2024-01-01T17:30:00. -/
theorem c7_carried_state_witness :
    ∃ s, lookupField exampleDay1.timings "Maghrib" = some s ∧
      parseTimingValue s = .ok ⟨1704130200000000, none⟩ :=
  (c7_carried_state 0 5 none exampleDay1 exampleEvts1
    ⟨1704130200000000, none⟩ (by decide) (by decide)).1

/-! ### Token stripping for C6 -/

theorem takeWhile_nonspace_append (l1 l2 : List Char)
    (h1 : ∀ c ∈ l1, isPySpace c = false) :
    (l1 ++ ' ' :: l2).takeWhile (fun c => !isPySpace c) = l1 := by
  induction l1 with
  | nil =>
    have hsp : isPySpace ' ' = true := by decide
    simp [List.takeWhile_cons, hsp]
  | cons c t ih =>
    have hc : isPySpace c = false := h1 c (by simp)
    simp [List.takeWhile_cons, hc, ih (fun x hx => h1 x (by simp [hx]))]

theorem takeWhile_nonspace_self (l : List Char)
    (h : ∀ c ∈ l, isPySpace c = false) :
    l.takeWhile (fun c => !isPySpace c) = l := by
  induction l with
  | nil => rfl
  | cons c t ih =>
    have hc : isPySpace c = false := h c (by simp)
    simp [List.takeWhile_cons, hc, ih (fun x hx => h x (by simp [hx]))]

/-- C6 (amended): parsing discards everything from the first whitespace
character on — so a whitespace-separated timezone annotation such as
`" (PST)"` is stripped and a plain token yields a naive result — but a
UTC offset attached directly to the token, such as `"-08:00"`, is not
stripped: it is parsed and retained, and the result is then aware. -/
theorem c6_tz_handling_amended :
    (∀ (tok suffix : List Char), tok ≠ [] →
      (∀ c ∈ tok, isPySpace c = false) →
      parseTimingValue ⟨tok ++ ' ' :: suffix⟩ = parseTimingValue ⟨tok⟩) ∧
    parseTimingValue "2024-01-01T17:30:00 (PST)" =
      .ok ⟨1704130200000000, none⟩ ∧
    parseTimingValue "2024-01-01T17:30:00-08:00 (PST)" =
      .ok ⟨1704130200000000, some (-28800000000)⟩ := by
  refine ⟨?_, by decide, by decide⟩
  intro tok suffix hne hns
  obtain ⟨c, t, rfl⟩ := List.exists_cons_of_ne_nil hne
  have hc : isPySpace c = false := hns c (by simp)
  have hsp1 : splitFirst ⟨(c :: t) ++ ' ' :: suffix⟩ = .ok (c :: t) := by
    simp only [splitFirst, List.cons_append, List.dropWhile_cons, hc,
      Bool.false_eq_true, if_false]
    rw [← List.cons_append]
    rw [takeWhile_nonspace_append (c :: t) suffix hns]
    rfl
  have hsp2 : splitFirst ⟨c :: t⟩ = .ok (c :: t) := by
    simp only [splitFirst, List.dropWhile_cons, hc,
      Bool.false_eq_true, if_false]
    rw [takeWhile_nonspace_self (c :: t) hns]
    rfl
  simp only [parseTimingValue, hsp1, hsp2]

/-- Witness for the amended C6: the `" (PST)"` annotation is stripped. -/
theorem c6_tz_handling_witness :
    parseTimingValue ⟨"2024-01-01T17:30:00".data ++ ' ' :: "(PST)".data⟩ =
      parseTimingValue "2024-01-01T17:30:00" :=
  c6_tz_handling_amended.1 "2024-01-01T17:30:00".data "(PST)".data
    (by decide) (by decide)

/-- Counterexample to C6 as stated: a timing value suffixed with the
timezone marker `-08:00` does not yield a naive date-time — the parsed
result carries the `-08:00` offset. -/
theorem c6_naive_counterexample :
    parseTimingValue "2024-01-01T05:00:00-08:00" =
      .ok ⟨1704085200000000, some (-28800000000)⟩ ∧
    ∀ dt, parseTimingValue "2024-01-01T05:00:00-08:00" = .ok dt →
      dt.off ≠ none := by
  refine ⟨by decide, ?_⟩
  intro dt hdt
  have h1 : (Except.ok dt : Except PyError PyDateTime) =
      .ok (⟨1704085200000000, some (-28800000000)⟩ : PyDateTime) := by
    rw [← hdt]
    decide
  injection h1 with h2
  subst h2
  simp

/-- C8: every successful `get_calendar_csv` output starts with exactly
the CSV header, and every data line is the event name, a
`"%m/%d/%Y"`-formatted start date, an `"%I:%M:%S %p"`-formatted start
time, end date and end time in the same formats, and the literal
description `Auto-generated`, joined by commas with no quoting; the two
format strings always produce the `MM/DD/YYYY` and `hh:mm:ss AM/PM`
character patterns (dates for years in the `datetime` range the model
covers, 1000..9999). -/
theorem c8_csv_format (mb ma : Int) (entries : List Entry)
    (ls : List String) (h : get_calendar_csv mb ma entries = .ok ls) :
    ls.head? = some CSV_HEADER ∧
    (∀ l ∈ ls.tail, ∃ r : String × PyDateTime × PyDateTime,
      l = r.1 ++ "," ++ fmtDate r.2.1 ++ "," ++ fmtTime r.2.1 ++ "," ++
        fmtDate r.2.2 ++ "," ++ fmtTime r.2.2 ++ ",Auto-generated") ∧
    (∀ t, timeShape (fmtTime t).data = true) ∧
    (∀ t, 1000 ≤ (wallCivil t).1 → (wallCivil t).1 ≤ 9999 →
      dateShape (fmtDate t).data = true) := by
  cases hc : convert_entries_to_csv_lines mb ma entries with
  | error err => simp [get_calendar_csv, hc] at h
  | ok rest =>
    simp only [get_calendar_csv, hc, Except.ok.injEq] at h
    subst h
    refine ⟨rfl, ?_, fmtTime_shape, fmtDate_shape⟩
    intro l hl
    obtain ⟨r, hr⟩ :=
      convertLoop_line_shape mb ma none entries rest hc l hl
    exact ⟨r, hr⟩

/-- Witness for C8: the one-day example output is led by the header. -/
theorem c8_csv_format_witness :
    (CSV_HEADER :: exampleLines1).head? = some CSV_HEADER :=
  (c8_csv_format 0 5 [exampleDay1] (CSV_HEADER :: exampleLines1)
    (by decide)).1

end PrayerCal
